import Mathlib

/-!
# The `Kernel` wrapper of gpuowl (`kernel.h`)

A shallow embedding of the class `Kernel`: one compiled OpenCL kernel bound to
one queue, with positional argument binding, a divisibility check at
construction and optional latency statistics.

Conventions of the embedding.

* Opaque OpenCL handles (`cl_program`, `cl_queue`, `cl_device_id`,
  `cl_kernel`) are natural-number identifiers.
* C++ `int` values are integers; the only arithmetic on them that can go
  wrong is the remainder `workSize % groupSize`, modelled by `cMod`.
* The functions of `clwrap.h` that the class calls are not among the
  sources.  The queries used by the constructor are fields of `Runtime`;
  the commands (`setArg`, `finish`, `run`) are recorded as events `Op`, in
  the order in which the code issues them.
* `assert` is taken as compiled in: a failed assertion ends construction.
* The value returned by `timer.deltaMicros()` is an input of a call.
-/

namespace GpuOwl

/-! ## Handles and machine arithmetic -/

abbrev cl_program := Nat
abbrev cl_queue := Nat
abbrev cl_device_id := Nat
abbrev cl_kernel := Nat

/-- The least value of a 32-bit `int`. -/
def INT_MIN : Int := -2147483648

/-- The C++ expression `a % b` on `int`: it has no value when `b` is zero or
when the quotient is not representable (`INT_MIN % -1`); otherwise it is the
remainder of the division truncated towards zero. -/
def cMod (a b : Int) : Option Int :=
  if b = 0 then none
  else if a = INT_MIN ∧ b = -1 then none
  else some (Int.tmod a b)

/-! ## Collaborators -/

/-- The queries of `clwrap.h` used by the constructor, taken as parameters
(their definitions are not among the sources).  `makeKernel` yields `none`
when the kernel cannot be acquired, which ends the process inside
`makeKernel`. -/
structure Runtime where
  makeKernel : cl_program → String → Option cl_kernel
  getKernelNumArgs : cl_kernel → Int
  getWorkGroupSize : cl_kernel → cl_device_id → String → Int
  getKernelArgName : cl_kernel → Int → String

/-- Modelled from the spec: the snapshot type `StatsInfo` of `stats.h`, which
is not among the sources.  The spec names a count and a total; the derived
aggregates it leaves open are not modelled. -/
structure StatsInfo where
  count : Nat
  total : Nat
deriving DecidableEq, Repr

/-- Modelled from the spec: the accumulator `Stats` of `stats.h`, which is not
among the sources: a number of samples and their sum, in microseconds. -/
structure Stats where
  n : Nat
  sum : Nat
deriving DecidableEq, Repr

/-- Modelled from the spec: a freshly built accumulator of `stats.h` is in its
empty state (zero count). -/
def Stats.init : Stats := ⟨0, 0⟩

/-- Modelled from the spec: `Stats::add` of `stats.h` ingests one sample. -/
def Stats.add (s : Stats) (micros : Nat) : Stats := ⟨s.n + 1, s.sum + micros⟩

/-- Modelled from the spec: `Stats::reset` of `stats.h` clears the accumulator
to its zero state. -/
def Stats.reset (_s : Stats) : Stats := ⟨0, 0⟩

/-- Modelled from the spec: `Stats::getStats` of `stats.h` returns the current
summary. -/
def Stats.getStats (s : Stats) : StatsInfo := ⟨s.n, s.sum⟩

/-- The calls a `Kernel` makes on its collaborators, as events.  `α` is the
type of the (type-erased) call-time argument values. -/
inductive Op (α : Type) where
  | setArg (kernel : cl_kernel) (pos : Int) (arg : α)
  | finish (queue : cl_queue)
  | run (queue : cl_queue) (kernel : cl_kernel) (groupSize workSize : Int) (name : String)
  | statsAdd (micros : Nat)
  | statsGetStats
  | statsReset
deriving DecidableEq, Repr

/-! ## The class -/

/-- The data members of `Kernel`, in declaration order.  `timeSum` and
`nCalls` are not initialised by the constructor and no member function
assigns them: `none` stands for their indeterminate value. -/
structure Kernel where
  kernel : cl_kernel
  queue : cl_queue
  workSize : Int
  nArgs : Int
  name : String
  argNames : List String
  timeSum : Option Nat
  nCalls : Option Nat
  doTime : Bool
  groupSize : Int
  stats : Stats
deriving DecidableEq, Repr

/-- The ways construction ends the process. -/
inductive Fatal where
  | makeKernelFailed
  | undefinedRemainder
  | assertWorkSize (logged : String)
  | assertNArgs
deriving DecidableEq, Repr

/-- The loop of the constructor body:
`for (int i = 0; i < nArgs; ++i) argNames.push_back(getKernelArgName(kernel.get(), i))`,
started on the empty vector. -/
def pushArgNames (rt : Runtime) (kernel : cl_kernel) (nArgs : Int) : List String :=
  (List.range nArgs.toNat).foldl
    (fun (argNames : List String) (i : Nat) => argNames ++ [rt.getKernelArgName kernel (i : Int)])
    []

/-- The constructor `Kernel::Kernel`.  The member initialisers run in
declaration order (`kernel`, `queue`, `workSize`, `nArgs`, `name`, `doTime`,
`groupSize`); then the body asserts `workSize % groupSize == 0` (logging the
name when it fails), asserts `nArgs >= 0`, and fills `argNames`. -/
def Kernel.construct (rt : Runtime) (program : cl_program) (q : cl_queue) (device : cl_device_id)
    (workSize : Int) (name : String) (doTime : Bool) : Except Fatal Kernel :=
  match rt.makeKernel program name with
  | none => .error .makeKernelFailed
  | some kernel =>
    let nArgs := rt.getKernelNumArgs kernel
    let groupSize := rt.getWorkGroupSize kernel device name
    match cMod workSize groupSize with
    | none => .error .undefinedRemainder
    | some r =>
      if r ≠ 0 then .error (.assertWorkSize name)
      else if ¬ (0 ≤ nArgs) then .error .assertNArgs
      else .ok
        { kernel := kernel, queue := q, workSize := workSize, nArgs := nArgs, name := name,
          argNames := pushArgNames rt kernel nArgs, timeSum := none, nCalls := none,
          doTime := doTime, groupSize := groupSize, stats := Stats.init }

/-- The body of `getArgPos` over the indices still to visit: the first index
whose entry equals `name` is returned, `-1` when the indices are exhausted.
Reading `argNames` out of bounds has no value. -/
def getArgPosFrom (argNames : List String) (name : String) : List Nat → Option Int
  | [] => some (-1)
  | i :: rest =>
    match argNames.get? i with
    | none => none
    | some s => if s = name then some (i : Int) else getArgPosFrom argNames name rest

/-- The member `getArgPos`:
`for (int i = 0; i < nArgs; ++i) if (argNames[i] == name) return i;  return -1;`. -/
def Kernel.getArgPos (k : Kernel) (name : String) : Option Int :=
  getArgPosFrom k.argNames name (List.range k.nArgs.toNat)

/-- The one-argument overload `setArgs(pos, arg)`: a single `::setArg`. -/
def Kernel.setArg1 {α : Type} (k : Kernel) (pos : Int) (arg : α) : List (Op α) :=
  [Op.setArg k.kernel pos arg]

/-- The variadic `setArgs(pos, arg, tail...)`: bind `arg` at `pos`, then the
tail from `pos + 1`; with an empty tail the one-argument overload is chosen. -/
def Kernel.setArgs {α : Type} (k : Kernel) (pos : Int) (arg : α) : List α → List (Op α)
  | [] => k.setArg1 pos arg
  | t :: tail => k.setArg1 pos arg ++ Kernel.setArgs k (pos + 1) t tail

/-- The call operator `operator()(args...)`.  At least one argument is needed
for `setArgs(0, args...)` to compile, hence `arg` and `tail`.  `micros` is what
`timer.deltaMicros()` returns when timing is enabled.  The result is the
handle afterwards and the events issued, in order. -/
def Kernel.call {α : Type} (k : Kernel) (arg : α) (tail : List α) (micros : Nat) :
    Kernel × List (Op α) :=
  let binds := k.setArgs 0 arg tail
  if k.doTime then
    ({ k with stats := k.stats.add micros },
      binds ++ [Op.finish k.queue,
                Op.run k.queue k.kernel k.groupSize k.workSize k.name,
                Op.finish k.queue,
                Op.statsAdd micros])
  else
    (k, binds ++ [Op.run k.queue k.kernel k.groupSize k.workSize k.name])

/-- The member `getName`. -/
def Kernel.getName (k : Kernel) : String := k.name

/-- The member `resetStats`: take the snapshot, reset the accumulator, return
the snapshot. -/
def Kernel.resetStats (k : Kernel) : StatsInfo × Kernel :=
  let ret := k.stats.getStats
  (ret, { k with stats := k.stats.reset })

/-! ## Sequences of operations on a handle -/

/-- What a caller can do with a constructed handle. -/
inductive Action (α : Type) where
  | call (arg : α) (tail : List α) (micros : Nat)
  | resetStats
deriving DecidableEq, Repr

/-- One action: the handle afterwards and the events issued. -/
def Kernel.step {α : Type} (k : Kernel) : Action α → Kernel × List (Op α)
  | .call arg tail micros => k.call arg tail micros
  | .resetStats => ((k.resetStats).2, [Op.statsGetStats, Op.statsReset])

/-- A finite sequence of actions, left to right, with the events of all of
them in order. -/
def Kernel.exec {α : Type} (k : Kernel) : List (Action α) → Kernel × List (Op α)
  | [] => (k, [])
  | a :: rest =>
    let r := k.step a
    let r2 := Kernel.exec r.1 rest
    (r2.1, r.2 ++ r2.2)

/-- The elapsed times of the invocations made since the last `resetStats` (or
since the start), oldest first: a property of the action sequence alone. -/
def samplesSinceReset {α : Type} : List (Action α) → List Nat → List Nat
  | [], acc => acc
  | .call _ _ micros :: rest, acc => samplesSinceReset rest (acc ++ [micros])
  | .resetStats :: rest, _ => samplesSinceReset rest []

/-- The elapsed times of the timed invocations since the last reset: those of
all invocations when timing is enabled, none otherwise. -/
def timedSinceReset {α : Type} (doTime : Bool) (acts : List (Action α)) : List Nat :=
  if doTime then samplesSinceReset acts [] else []

/-! ## A concrete runtime for the worked examples -/

/-- A runtime with one kernel (handle 7) that declares the two arguments
`in` and `out` and for which the device reports group size 64. -/
def demoRuntime : Runtime where
  makeKernel := fun _ _ => some 7
  getKernelNumArgs := fun _ => 2
  getWorkGroupSize := fun _ _ _ => 64
  getKernelArgName := fun _ i => if i = 0 then "in" else "out"

/-- The handle built on `demoRuntime` with work size 256 and timing on. -/
def demoKernel : Kernel :=
  { kernel := 7, queue := 1, workSize := 256, nArgs := 2, name := "fft",
    argNames := ["in", "out"], timeSum := none, nCalls := none, doTime := true,
    groupSize := 64, stats := Stats.init }

/-- A runtime whose kernel (handle 3) reports the same name for both of its
arguments and group size 64. -/
def dupRuntime : Runtime where
  makeKernel := fun _ _ => some 3
  getKernelNumArgs := fun _ => 2
  getWorkGroupSize := fun _ _ _ => 64
  getKernelArgName := fun _ _ => "x"

/-- A runtime whose group-size query yields a negative `int`, -64. -/
def negRuntime : Runtime where
  makeKernel := fun _ _ => some 5
  getKernelNumArgs := fun _ => 0
  getWorkGroupSize := fun _ _ _ => -64
  getKernelArgName := fun _ _ => ""

/-- Three invocations with distinct argument sets. -/
def demoCalls : List (Action Nat) :=
  [Action.call 10 [20] 5, Action.call 11 [21] 7, Action.call 12 [22] 9]

/-- Invocations and a reset, interleaved. -/
def demoActions : List (Action Nat) :=
  [Action.call 10 [20] 5, Action.resetStats, Action.call 11 [21] 7, Action.call 12 [22] 9]

/-- The fields other than the accumulator agree. -/
def SameButStats (k k2 : Kernel) : Prop := k2 = { k with stats := k2.stats }

instance (k k2 : Kernel) : Decidable (SameButStats k k2) := by
  unfold SameButStats
  infer_instance

/-- The accumulator state that holds exactly the given samples. -/
def Stats.ofSamples (samples : List Nat) : Stats := ⟨samples.length, samples.sum⟩

/-- Classification of events: a per-slot bind. -/
def Op.isSetArg {α : Type} : Op α → Bool
  | .setArg _ _ _ => true
  | _ => false

/-- Classification of events: a queue drain. -/
def Op.isFinish {α : Type} : Op α → Bool
  | .finish _ => true
  | _ => false

/-- Classification of events: a kernel launch. -/
def Op.isRun {α : Type} : Op α → Bool
  | .run _ _ _ _ _ => true
  | _ => false

/-- Classification of events: an operation on the accumulator. -/
def Op.isStats {α : Type} : Op α → Bool
  | .statsAdd _ => true
  | .statsGetStats => true
  | .statsReset => true
  | _ => false

/-- The binds of the arguments `args` at the slots `0, 1, 2, ...`, in order. -/
def bindsInOrder {α : Type} (kernel : cl_kernel) (args : List α) : List (Op α) :=
  args.enum.map (fun p => Op.setArg kernel (p.1 : Int) p.2)

/-! ## Auxiliary facts -/

theorem cMod_eq_some_iff (a b r : Int) :
    cMod a b = some r ↔ b ≠ 0 ∧ ¬ (a = INT_MIN ∧ b = -1) ∧ Int.tmod a b = r := by
  unfold cMod
  by_cases hb : b = 0
  · simp [hb]
  · by_cases hm : a = INT_MIN ∧ b = -1
    · simp [hb, hm]
    · simp [hb, hm]

theorem tmod_eq_zero_iff_emod (a b : Int) : Int.tmod a b = 0 ↔ a % b = 0 := by
  constructor
  · intro h
    exact Int.emod_eq_zero_of_dvd (Int.dvd_of_tmod_eq_zero h)
  · intro h
    exact Int.tmod_eq_zero_of_dvd (Int.dvd_of_emod_eq_zero h)

theorem cMod_zero_dvd {a b : Int} (h : cMod a b = some 0) : b ≠ 0 ∧ a % b = 0 := by
  obtain ⟨hb, _, hr⟩ := (cMod_eq_some_iff a b 0).1 h
  exact ⟨hb, (tmod_eq_zero_iff_emod a b).1 hr⟩

theorem foldl_push_eq_map {β : Type} (f : Nat → β) (l : List Nat) (acc : List β) :
    l.foldl (fun xs i => xs ++ [f i]) acc = acc ++ l.map f := by
  induction l generalizing acc with
  | nil => simp
  | cons x rest ih => simp [List.foldl_cons, ih]

theorem pushArgNames_eq_map (rt : Runtime) (kernel : cl_kernel) (nArgs : Int) :
    pushArgNames rt kernel nArgs
      = (List.range nArgs.toNat).map (fun (i : Nat) => rt.getKernelArgName kernel (i : Int)) := by
  unfold pushArgNames
  rw [foldl_push_eq_map (fun (i : Nat) => rt.getKernelArgName kernel (i : Int))]
  simp

/-- What a successful construction has checked and stored. -/
theorem construct_ok {rt : Runtime} {program : cl_program} {q : cl_queue} {device : cl_device_id}
    {workSize : Int} {name : String} {doTime : Bool} {k : Kernel}
    (h : Kernel.construct rt program q device workSize name doTime = .ok k) :
    ∃ kernel, rt.makeKernel program name = some kernel
      ∧ cMod workSize (rt.getWorkGroupSize kernel device name) = some 0
      ∧ 0 ≤ rt.getKernelNumArgs kernel
      ∧ k = { kernel := kernel, queue := q, workSize := workSize,
              nArgs := rt.getKernelNumArgs kernel, name := name,
              argNames := pushArgNames rt kernel (rt.getKernelNumArgs kernel),
              timeSum := none, nCalls := none, doTime := doTime,
              groupSize := rt.getWorkGroupSize kernel device name, stats := Stats.init } := by
  unfold Kernel.construct at h
  cases hk : rt.makeKernel program name with
  | none => simp [hk] at h
  | some kernel =>
    simp only [hk] at h
    cases hm : cMod workSize (rt.getWorkGroupSize kernel device name) with
    | none => simp [hm] at h
    | some r =>
      simp only [hm] at h
      by_cases hr : r = 0
      · by_cases hn : 0 ≤ rt.getKernelNumArgs kernel
        · simp [hr, hn] at h
          exact ⟨kernel, rfl, by rw [hm, hr], hn, h.symm⟩
        · simp [hr, hn] at h
      · simp [hr] at h

/-- Construction succeeds once the kernel is acquired, the remainder is zero
and the argument count is not negative. -/
theorem construct_of_checks {rt : Runtime} {program : cl_program} (q : cl_queue)
    {device : cl_device_id} {workSize : Int} {name : String} (doTime : Bool) {kernel : cl_kernel}
    (hk : rt.makeKernel program name = some kernel)
    (hm : cMod workSize (rt.getWorkGroupSize kernel device name) = some 0)
    (hn : 0 ≤ rt.getKernelNumArgs kernel) :
    ∃ k, Kernel.construct rt program q device workSize name doTime = .ok k := by
  unfold Kernel.construct
  simp [hk, hm, hn]

/-- Construction fails when the remainder check does not pass. -/
theorem construct_fails_of_mod {rt : Runtime} {program : cl_program} (q : cl_queue)
    {device : cl_device_id} {workSize : Int} {name : String} (doTime : Bool) {kernel : cl_kernel}
    (hk : rt.makeKernel program name = some kernel)
    (hm : cMod workSize (rt.getWorkGroupSize kernel device name) ≠ some 0) :
    ∃ e, Kernel.construct rt program q device workSize name doTime = .error e := by
  unfold Kernel.construct
  simp only [hk]
  cases hc : cMod workSize (rt.getWorkGroupSize kernel device name) with
  | none => exact ⟨_, rfl⟩
  | some r =>
    have hr : r ≠ 0 := by
      intro h0
      exact hm (by rw [hc, h0])
    simp [hr]

theorem SameButStats.refl (k : Kernel) : SameButStats k k := rfl

theorem SameButStats.trans {a b c : Kernel} (h1 : SameButStats a b) (h2 : SameButStats b c) :
    SameButStats a c := by
  unfold SameButStats at *
  rw [h2, h1]

theorem call_sameButStats {α : Type} (k : Kernel) (arg : α) (tail : List α) (micros : Nat) :
    SameButStats k (k.call arg tail micros).1 := by
  unfold Kernel.call SameButStats
  split <;> rfl

theorem step_sameButStats {α : Type} (k : Kernel) (a : Action α) :
    SameButStats k (k.step a).1 := by
  cases a with
  | call arg tail micros => exact call_sameButStats k arg tail micros
  | resetStats => rfl

theorem exec_sameButStats {α : Type} (k : Kernel) (acts : List (Action α)) :
    SameButStats k (k.exec acts).1 := by
  induction acts generalizing k with
  | nil => exact SameButStats.refl k
  | cons a rest ih =>
    exact SameButStats.trans (step_sameButStats k a) (ih (k.step a).1)

theorem mem_setArgs_isBind {α : Type} (k : Kernel) (tail : List α) (pos : Int) (arg : α)
    (op : Op α) (h : op ∈ k.setArgs pos arg tail) : ∃ p a, op = Op.setArg k.kernel p a := by
  induction tail generalizing pos arg with
  | nil =>
    simp [Kernel.setArgs, Kernel.setArg1] at h
    exact ⟨pos, arg, h⟩
  | cons t rest ih =>
    simp only [Kernel.setArgs, Kernel.setArg1, List.mem_append, List.mem_singleton] at h
    rcases h with h | h
    · exact ⟨pos, arg, h⟩
    · exact ih (pos + 1) t h

/-- Every launch issued by one invocation carries the stored sizes. -/
theorem call_run_sizes {α : Type} (k : Kernel) (arg : α) (tail : List α) (micros : Nat)
    (qq : cl_queue) (kk : cl_kernel) (gs ws : Int) (nm : String)
    (h : Op.run qq kk gs ws nm ∈ (k.call arg tail micros).2) :
    gs = k.groupSize ∧ ws = k.workSize := by
  unfold Kernel.call at h
  cases hd : k.doTime
  · simp only [hd, Bool.false_eq_true, if_false, List.mem_append, List.mem_singleton] at h
    rcases h with h | h
    · obtain ⟨p, a, hpa⟩ := mem_setArgs_isBind k tail 0 arg _ h
      cases hpa
    · injection h with _ _ h3 h4 _
      exact ⟨h3, h4⟩
  · simp only [hd, if_true, List.mem_append, List.mem_cons, List.mem_singleton] at h
    rcases h with h | h
    · obtain ⟨p, a, hpa⟩ := mem_setArgs_isBind k tail 0 arg _ h
      cases hpa
    · rcases h with h | h | h | h | h
      · cases h
      · injection h with _ _ h3 h4 _
        exact ⟨h3, h4⟩
      · cases h
      · cases h
      · simp at h

theorem exec_run_sizes {α : Type} (k : Kernel) (acts : List (Action α))
    (qq : cl_queue) (kk : cl_kernel) (gs ws : Int) (nm : String)
    (h : Op.run qq kk gs ws nm ∈ (k.exec acts).2) :
    gs = k.groupSize ∧ ws = k.workSize := by
  induction acts generalizing k with
  | nil => simp [Kernel.exec] at h
  | cons a rest ih =>
    simp only [Kernel.exec, List.mem_append] at h
    rcases h with h | h
    · cases a with
      | call arg tail micros => exact call_run_sizes k arg tail micros qq kk gs ws nm h
      | resetStats => simp [Kernel.step] at h
    · have hs := step_sameButStats k a
      have := ih (k.step a).1 h
      unfold SameButStats at hs
      rw [hs] at this
      exact this

/-! ## Construction -/

/-- C1: once the kernel is acquired and the declared argument count is not
negative, construction yields a handle exactly when the C++ test
`workSize % groupSize == 0` holds, for every work size and every reported
group size, and ends fatally, with no handle, in every other case; where the
remainder is defined the test is plain divisibility.  Work size 256 with group
size 64 succeeds, work size 100 with group size 64 fails. -/
theorem C1_construct_iff_workSize_multiple (rt : Runtime) (program : cl_program) (q : cl_queue)
    (device : cl_device_id) (workSize : Int) (name : String) (doTime : Bool) (kernel : cl_kernel)
    (hk : rt.makeKernel program name = some kernel) (hn : 0 ≤ rt.getKernelNumArgs kernel) :
    ((∃ k, Kernel.construct rt program q device workSize name doTime = .ok k)
        ↔ cMod workSize (rt.getWorkGroupSize kernel device name) = some 0)
    ∧ ((∃ e, Kernel.construct rt program q device workSize name doTime = .error e)
        ↔ cMod workSize (rt.getWorkGroupSize kernel device name) ≠ some 0)
    ∧ (rt.getWorkGroupSize kernel device name ≠ 0 →
        ¬ (workSize = INT_MIN ∧ rt.getWorkGroupSize kernel device name = -1) →
        (cMod workSize (rt.getWorkGroupSize kernel device name) = some 0
          ↔ workSize % rt.getWorkGroupSize kernel device name = 0))
    ∧ (workSize = 256 → rt.getWorkGroupSize kernel device name = 64 →
        ∃ k, Kernel.construct rt program q device workSize name doTime = .ok k)
    ∧ (workSize = 100 → rt.getWorkGroupSize kernel device name = 64 →
        ∃ e, Kernel.construct rt program q device workSize name doTime = .error e) := by
  have hsucc : (∃ k, Kernel.construct rt program q device workSize name doTime = .ok k)
      ↔ cMod workSize (rt.getWorkGroupSize kernel device name) = some 0 := by
    constructor
    · rintro ⟨k, h⟩
      obtain ⟨kernel2, hk2, hm, _, _⟩ := construct_ok h
      rw [hk] at hk2
      cases hk2
      exact hm
    · intro hm
      exact construct_of_checks q doTime hk hm hn
  have hfail : (∃ e, Kernel.construct rt program q device workSize name doTime = .error e)
      ↔ cMod workSize (rt.getWorkGroupSize kernel device name) ≠ some 0 := by
    constructor
    · rintro ⟨e, h⟩ hm
      obtain ⟨k, hk2⟩ := construct_of_checks q doTime hk hm hn
      rw [h] at hk2
      cases hk2
    · intro hm
      exact construct_fails_of_mod q doTime hk hm
  refine ⟨hsucc, hfail, ?_, ?_, ?_⟩
  · intro hb hmin
    rw [cMod_eq_some_iff, tmod_eq_zero_iff_emod]
    constructor
    · intro h
      exact h.2.2
    · intro h
      exact ⟨hb, hmin, h⟩
  · intro hw hg
    apply hsucc.2
    rw [hw, hg]
    rfl
  · intro hw hg
    apply hfail.2
    rw [hw, hg]
    decide

theorem C1_construct_iff_workSize_multiple_witness :
    demoRuntime.makeKernel 0 "fft" = some 7 ∧ 0 ≤ demoRuntime.getKernelNumArgs 7
      ∧ (∃ k, Kernel.construct demoRuntime 0 1 0 256 "fft" true = .ok k)
      ∧ (∃ e, Kernel.construct demoRuntime 0 1 0 100 "fft" true = .error e) :=
  ⟨rfl, by decide,
    (C1_construct_iff_workSize_multiple demoRuntime 0 1 0 256 "fft" true 7 rfl
      (by decide)).2.2.2.1 rfl rfl,
    (C1_construct_iff_workSize_multiple demoRuntime 0 1 0 100 "fft" true 7 rfl
      (by decide)).2.2.2.2 rfl rfl⟩

/-- C9: in a successful construction the stored name sequence has exactly as
many entries as the runtime reports arguments (the stored `nArgs`), entry `i`
is the name the runtime declares for argument `i`, in index order; a negative
reported count makes construction fail; and after any sequence of invocations
and resets the sequence is the same, so its length still equals `nArgs`. -/
theorem C9_argNames_are_declared_names {α : Type} (rt : Runtime) (program : cl_program)
    (q : cl_queue) (device : cl_device_id) (workSize : Int) (name : String) (doTime : Bool)
    (kernel : cl_kernel) (hk : rt.makeKernel program name = some kernel) :
    (rt.getKernelNumArgs kernel < 0 →
        ∃ e, Kernel.construct rt program q device workSize name doTime = .error e)
    ∧ ∀ k, Kernel.construct rt program q device workSize name doTime = .ok k →
        k.nArgs = rt.getKernelNumArgs kernel
        ∧ (k.argNames.length : Int) = k.nArgs
        ∧ (∀ i : Nat, (i : Int) < k.nArgs →
            k.argNames.get? i = some (rt.getKernelArgName kernel (i : Int)))
        ∧ ∀ acts : List (Action α),
            (k.exec acts).1.argNames = k.argNames
            ∧ (k.exec acts).1.nArgs = k.nArgs
            ∧ ((k.exec acts).1.argNames.length : Int) = (k.exec acts).1.nArgs := by
  constructor
  · intro hneg
    cases hc : Kernel.construct rt program q device workSize name doTime with
    | error e => exact ⟨e, rfl⟩
    | ok k =>
      obtain ⟨kernel2, hk2, _, hn, _⟩ := construct_ok hc
      rw [hk] at hk2
      cases hk2
      omega
  · intro k h
    obtain ⟨kernel2, hk2, _, hn, hkeq⟩ := construct_ok h
    rw [hk] at hk2
    cases hk2
    have hnargs : k.nArgs = rt.getKernelNumArgs kernel := by rw [hkeq]
    have hnames : k.argNames = (List.range (rt.getKernelNumArgs kernel).toNat).map
        (fun (i : Nat) => rt.getKernelArgName kernel (i : Int)) := by
      rw [hkeq]
      exact pushArgNames_eq_map rt kernel _
    have hlen : (k.argNames.length : Int) = k.nArgs := by
      rw [hnames, hnargs]
      simp only [List.length_map, List.length_range]
      exact Int.toNat_of_nonneg hn
    refine ⟨hnargs, hlen, ?_, ?_⟩
    · intro i hi
      rw [hnargs] at hi
      rw [hnames]
      have hi2 : i < (rt.getKernelNumArgs kernel).toNat := by omega
      simp [List.getElem?_range, hi2]
    · intro acts
      have hs := exec_sameButStats k acts
      unfold SameButStats at hs
      have h1 : (k.exec acts).1.argNames = k.argNames := by rw [hs]
      have h2 : (k.exec acts).1.nArgs = k.nArgs := by rw [hs]
      exact ⟨h1, h2, by rw [h1, h2]; exact hlen⟩

theorem C9_argNames_are_declared_names_witness :
    demoRuntime.makeKernel 0 "fft" = some 7
      ∧ demoKernel.nArgs = 2 ∧ demoKernel.argNames = ["in", "out"]
      ∧ ((demoKernel.exec demoActions).1.argNames.length : Int)
          = (demoKernel.exec demoActions).1.nArgs :=
  ⟨rfl,
    ((@C9_argNames_are_declared_names Nat demoRuntime 0 1 0 256 "fft" true 7 rfl).2
      demoKernel rfl).1,
    rfl,
    (((@C9_argNames_are_declared_names Nat demoRuntime 0 1 0 256 "fft" true 7 rfl).2
      demoKernel rfl).2.2.2 demoActions).2.2⟩

/-- C10, the claim as stated fails: with the reported group size 64,
construction from work size 0 and from work size -64 each produce a handle,
whose stored work size is not positive; and when the group-size query yields
-64, construction from work size 64 produces a handle whose stored group size
is not positive. -/
theorem C10_positivity_counterexample :
    (∃ k, Kernel.construct demoRuntime 0 1 0 0 "fft" true = .ok k ∧ ¬ (0 < k.workSize))
      ∧ (∃ k, Kernel.construct demoRuntime 0 1 0 (-64) "fft" true = .ok k
          ∧ ¬ (0 < k.workSize))
      ∧ (∃ k, Kernel.construct negRuntime 0 1 0 64 "fft" true = .ok k
          ∧ ¬ (0 < k.groupSize)) :=
  ⟨⟨_, rfl, by decide⟩, ⟨_, rfl, by decide⟩, ⟨_, rfl, by decide⟩⟩

/-- C10, amended: a handle that construction produces stores the work size it
was given and the group size the device reported for the acquired kernel; the
stored group size is not zero and evenly divides the stored work size; and
both stored sizes are positive whenever the supplied work size and the
reported group size are.  Construction does not test the sign of either. -/
theorem C10_sizes_stored_and_divisible (rt : Runtime) (program : cl_program) (q : cl_queue)
    (device : cl_device_id) (workSize : Int) (name : String) (doTime : Bool) (k : Kernel)
    (h : Kernel.construct rt program q device workSize name doTime = .ok k) :
    rt.makeKernel program name = some k.kernel
    ∧ k.workSize = workSize
    ∧ k.groupSize = rt.getWorkGroupSize k.kernel device name
    ∧ k.groupSize ≠ 0
    ∧ k.groupSize ∣ k.workSize
    ∧ (0 < workSize → 0 < rt.getWorkGroupSize k.kernel device name →
        0 < k.workSize ∧ 0 < k.groupSize) := by
  obtain ⟨kernel, hk, hm, _, hkeq⟩ := construct_ok h
  have h1 : k.kernel = kernel := by rw [hkeq]
  have h2 : k.workSize = workSize := by rw [hkeq]
  have h3 : k.groupSize = rt.getWorkGroupSize kernel device name := by rw [hkeq]
  obtain ⟨hb, hr⟩ := cMod_zero_dvd hm
  rw [h1]
  refine ⟨hk, h2, h3, ?_, ?_, ?_⟩
  · rw [h3]
    exact hb
  · rw [h2, h3]
    exact Int.dvd_of_emod_eq_zero hr
  · intro hw hg
    rw [h2, h3]
    exact ⟨hw, hg⟩

theorem C10_sizes_stored_and_divisible_witness :
    Kernel.construct demoRuntime 0 1 0 256 "fft" true = .ok demoKernel
      ∧ demoKernel.workSize = 256 ∧ demoKernel.groupSize ≠ 0
      ∧ demoKernel.groupSize ∣ demoKernel.workSize :=
  ⟨rfl,
    (C10_sizes_stored_and_divisible demoRuntime 0 1 0 256 "fft" true demoKernel rfl).2.1,
    (C10_sizes_stored_and_divisible demoRuntime 0 1 0 256 "fft" true demoKernel rfl).2.2.2.1,
    (C10_sizes_stored_and_divisible demoRuntime 0 1 0 256 "fft" true demoKernel rfl).2.2.2.2.1⟩

/-! ## Invariants of a constructed handle -/

/-- C6: for a handle constructed with name `s`, after every finite sequence
of invocations and `resetStats` calls `getName` returns exactly `s`. -/
theorem C6_getName_is_construction_name {α : Type} (rt : Runtime) (program : cl_program)
    (q : cl_queue) (device : cl_device_id) (workSize : Int) (s : String) (doTime : Bool)
    (k : Kernel) (h : Kernel.construct rt program q device workSize s doTime = .ok k)
    (acts : List (Action α)) :
    (k.exec acts).1.getName = s := by
  obtain ⟨kernel, _, _, _, hkeq⟩ := construct_ok h
  have hs := exec_sameButStats k acts
  unfold SameButStats at hs
  unfold Kernel.getName
  rw [hs]
  show k.name = s
  rw [hkeq]

theorem C6_getName_is_construction_name_witness :
    Kernel.construct demoRuntime 0 1 0 256 "fft" true = .ok demoKernel
      ∧ (demoKernel.exec demoActions).1.getName = "fft" :=
  ⟨rfl, C6_getName_is_construction_name demoRuntime 0 1 0 256 "fft" true demoKernel rfl
    demoActions⟩

/-- C8: in every state reached from a successful construction by a finite
sequence of invocations and `resetStats` calls, the stored work size and group
size are those fixed at construction, the C++ test
`workSize % groupSize == 0` holds of them (the group size is not zero and
divides the work size), and every launch issued along the way was passed
exactly the stored group size and work size. -/
theorem C8_divisibility_invariant {α : Type} (rt : Runtime) (program : cl_program)
    (q : cl_queue) (device : cl_device_id) (workSize : Int) (name : String) (doTime : Bool)
    (k : Kernel) (h : Kernel.construct rt program q device workSize name doTime = .ok k)
    (acts : List (Action α)) :
    (k.exec acts).1.workSize = workSize
    ∧ (k.exec acts).1.groupSize = rt.getWorkGroupSize k.kernel device name
    ∧ cMod (k.exec acts).1.workSize (k.exec acts).1.groupSize = some 0
    ∧ (k.exec acts).1.groupSize ≠ 0
    ∧ (k.exec acts).1.workSize % (k.exec acts).1.groupSize = 0
    ∧ ∀ (qq : cl_queue) (kk : cl_kernel) (gs ws : Int) (nm : String),
        Op.run qq kk gs ws nm ∈ (k.exec acts).2 →
          gs = (k.exec acts).1.groupSize ∧ ws = (k.exec acts).1.workSize := by
  obtain ⟨kernel, _, hm, _, hkeq⟩ := construct_ok h
  have hs := exec_sameButStats k acts
  unfold SameButStats at hs
  have hw : (k.exec acts).1.workSize = k.workSize := by rw [hs]
  have hg : (k.exec acts).1.groupSize = k.groupSize := by rw [hs]
  have h1 : k.kernel = kernel := by rw [hkeq]
  have h2 : k.workSize = workSize := by rw [hkeq]
  have h3 : k.groupSize = rt.getWorkGroupSize kernel device name := by rw [hkeq]
  obtain ⟨hb, hr⟩ := cMod_zero_dvd hm
  rw [hw, hg, h1, h2, h3]
  refine ⟨rfl, rfl, hm, hb, hr, ?_⟩
  intro qq kk gs ws nm hmem
  have := exec_run_sizes k acts qq kk gs ws nm hmem
  rw [h2, h3] at this
  exact this

theorem C8_divisibility_invariant_witness :
    Kernel.construct demoRuntime 0 1 0 256 "fft" true = .ok demoKernel
      ∧ (demoKernel.exec demoActions).1.workSize = 256
      ∧ (demoKernel.exec demoActions).1.groupSize = 64
      ∧ (Op.run 1 7 64 256 "fft" ∈ (demoKernel.exec demoActions).2 →
          (64 : Int) = (demoKernel.exec demoActions).1.groupSize
            ∧ (256 : Int) = (demoKernel.exec demoActions).1.workSize) :=
  ⟨rfl,
    (C8_divisibility_invariant demoRuntime 0 1 0 256 "fft" true demoKernel rfl demoActions).1,
    (C8_divisibility_invariant demoRuntime 0 1 0 256 "fft" true demoKernel rfl demoActions).2.1,
    (C8_divisibility_invariant demoRuntime 0 1 0 256 "fft" true demoKernel rfl
      demoActions).2.2.2.2.2 1 7 64 256 "fft"⟩

/-! ## Binding and dispatch -/

theorem setArgs_eq_enumFrom {α : Type} (k : Kernel) (tail : List α) (n : Nat) (arg : α) :
    k.setArgs (n : Int) arg tail
      = ((arg :: tail).enumFrom n).map (fun p => Op.setArg k.kernel (p.1 : Int) p.2) := by
  induction tail generalizing n arg with
  | nil => simp [Kernel.setArgs, Kernel.setArg1]
  | cons t rest ih =>
    have h := ih (n + 1) t
    rw [Nat.cast_add, Nat.cast_one] at h
    simp only [Kernel.setArgs, Kernel.setArg1, h]
    simp

theorem setArgs_eq_bindsInOrder {α : Type} (k : Kernel) (arg : α) (tail : List α) :
    k.setArgs 0 arg tail = bindsInOrder k.kernel (arg :: tail) := by
  have h := setArgs_eq_enumFrom k tail 0 arg
  rw [Nat.cast_zero] at h
  rw [h]
  rfl

theorem bindsInOrder_length {α : Type} (kernel : cl_kernel) (args : List α) :
    (bindsInOrder kernel args).length = args.length := by
  simp [bindsInOrder]

theorem bindsInOrder_getElem? {α : Type} (kernel : cl_kernel) (args : List α) (i : Nat) (a : α)
    (h : args[i]? = some a) :
    (bindsInOrder kernel args)[i]? = some (Op.setArg kernel (i : Int) a) := by
  simp [bindsInOrder, List.getElem?_enum, h]

theorem countP_binds {α : Type} (kernel : cl_kernel) (l : List (Nat × α)) :
    (l.map (fun p => Op.setArg kernel (p.1 : Int) p.2)).countP Op.isSetArg = l.length
    ∧ (l.map (fun p => Op.setArg kernel (p.1 : Int) p.2)).countP Op.isFinish = 0
    ∧ (l.map (fun p => Op.setArg kernel (p.1 : Int) p.2)).countP Op.isRun = 0
    ∧ (l.map (fun p => Op.setArg kernel (p.1 : Int) p.2)).countP Op.isStats = 0 := by
  induction l with
  | nil => simp
  | cons p rest ih =>
    obtain ⟨h1, h2, h3, h4⟩ := ih
    simp only [List.map_cons, List.length_cons]
    refine ⟨?_, ?_, ?_, ?_⟩
    · rw [List.countP_cons, h1]
      simp [Op.isSetArg]
    · rw [List.countP_cons, h2]
      simp [Op.isFinish]
    · rw [List.countP_cons, h3]
      simp [Op.isRun]
    · rw [List.countP_cons, h4]
      simp [Op.isStats]

theorem bindsInOrder_countP {α : Type} (kernel : cl_kernel) (args : List α) :
    (bindsInOrder kernel args).countP Op.isSetArg = args.length
    ∧ (bindsInOrder kernel args).countP Op.isFinish = 0
    ∧ (bindsInOrder kernel args).countP Op.isRun = 0
    ∧ (bindsInOrder kernel args).countP Op.isStats = 0 := by
  have h := countP_binds kernel args.enum
  rw [List.enum_length] at h
  exact h

/-- The events of one invocation: the binds, then the dispatch sequence. -/
theorem call_events {α : Type} (k : Kernel) (arg : α) (tail : List α) (micros : Nat) :
    (k.call arg tail micros).2
      = bindsInOrder k.kernel (arg :: tail)
        ++ (if k.doTime then
              [Op.finish k.queue, Op.run k.queue k.kernel k.groupSize k.workSize k.name,
               Op.finish k.queue, Op.statsAdd micros]
            else [Op.run k.queue k.kernel k.groupSize k.workSize k.name]) := by
  unfold Kernel.call
  simp only [setArgs_eq_bindsInOrder]
  split <;> rfl

/-- C2: for arguments `a_0 .. a_{N-1}` (`N ≥ 1`) passed to the call operator,
`setArgs(0, ...)` issues exactly the `N` binds of `a_k` at slot `k`, in the
order `k = 0, 1, ..., N-1`; they are the first `N` events of the invocation and
its only binds; and a call with the arguments at positions `i` and `j`
exchanged binds each of the two at the slot the other had. -/
theorem C2_setArgs_binds_in_call_order {α : Type} (k : Kernel) (arg : α) (tail : List α)
    (micros : Nat) :
    k.setArgs 0 arg tail = bindsInOrder k.kernel (arg :: tail)
    ∧ (k.setArgs 0 arg tail).length = (arg :: tail).length
    ∧ (∀ (i : Nat) (a : α), (arg :: tail)[i]? = some a →
        (k.setArgs 0 arg tail)[i]? = some (Op.setArg k.kernel (i : Int) a)
        ∧ (k.call arg tail micros).2[i]? = some (Op.setArg k.kernel (i : Int) a))
    ∧ (k.call arg tail micros).2.take (arg :: tail).length = k.setArgs 0 arg tail
    ∧ (k.call arg tail micros).2.countP Op.isSetArg = (arg :: tail).length
    ∧ (∀ (i j : Nat) (a b : α) (arg2 : α) (tail2 : List α),
        (arg :: tail)[i]? = some a → (arg :: tail)[j]? = some b →
        arg2 :: tail2 = ((arg :: tail).set i b).set j a →
        (k.call arg2 tail2 micros).2[i]? = some (Op.setArg k.kernel (i : Int) b)
        ∧ (k.call arg2 tail2 micros).2[j]? = some (Op.setArg k.kernel (j : Int) a)) := by
  have hcall : ∀ (x : α) (xs : List α) (i : Nat) (a : α), (x :: xs)[i]? = some a →
      (k.call x xs micros).2[i]? = some (Op.setArg k.kernel (i : Int) a) := by
    intro x xs i a h
    rw [call_events]
    have hlt : i < (bindsInOrder k.kernel (x :: xs)).length := by
      rw [bindsInOrder_length]
      exact (List.getElem?_eq_some.1 h).1
    rw [List.getElem?_append_left hlt]
    exact bindsInOrder_getElem? k.kernel (x :: xs) i a h
  refine ⟨setArgs_eq_bindsInOrder k arg tail, ?_, ?_, ?_, ?_, ?_⟩
  · rw [setArgs_eq_bindsInOrder, bindsInOrder_length]
  · intro i a h
    refine ⟨?_, hcall arg tail i a h⟩
    rw [setArgs_eq_bindsInOrder]
    exact bindsInOrder_getElem? k.kernel (arg :: tail) i a h
  · rw [call_events, setArgs_eq_bindsInOrder]
    have hl := bindsInOrder_length k.kernel (arg :: tail)
    rw [← hl, List.take_left]
  · rw [call_events, List.countP_append, (bindsInOrder_countP k.kernel (arg :: tail)).1]
    split <;> simp [Op.isSetArg]
  · intro i j a b arg2 tail2 hi hj hswap
    have hil : i < (arg :: tail).length := (List.getElem?_eq_some.1 hi).1
    have hjl : j < (arg :: tail).length := (List.getElem?_eq_some.1 hj).1
    constructor
    · apply hcall
      rw [hswap]
      by_cases hij : j = i
      · subst hij
        rw [List.getElem?_set_self (by simpa using hjl)]
        rw [hi] at hj
        exact hj
      · rw [List.getElem?_set_ne hij, List.getElem?_set_self hil]
    · apply hcall
      rw [hswap]
      rw [List.getElem?_set_self (by simpa using hjl)]

theorem C2_setArgs_binds_in_call_order_witness :
    [10, 20, 30][0]? = some 10 ∧ [10, 20, 30][2]? = some 30
      ∧ (30 :: [20, 10]) = ([10, 20, 30].set 0 30).set 2 10
      ∧ (demoKernel.call 30 [20, 10] 5).2[0]? = some (Op.setArg demoKernel.kernel 0 30)
      ∧ (demoKernel.call 30 [20, 10] 5).2[2]? = some (Op.setArg demoKernel.kernel 2 10) :=
  ⟨rfl, rfl, rfl,
    (C2_setArgs_binds_in_call_order demoKernel 10 [20, 30] 5).2.2.2.2.2
      0 2 10 30 30 [20, 10] rfl rfl rfl⟩

/-- C7: the events of one invocation with `N` arguments are exactly the `N`
binds at slots `0 .. N-1` followed, with timing enabled, by
drain, launch(queue, kernel, groupSize, workSize, name), drain, accumulator add
of the elapsed time, in that order, and, with timing disabled, by the launch
alone; so there is exactly one launch, there are two drains around it when
timing is enabled and none otherwise, and one accumulator operation when
timing is enabled and none otherwise. -/
theorem C7_call_event_sequence {α : Type} (k : Kernel) (arg : α) (tail : List α)
    (micros : Nat) :
    (k.call arg tail micros).2
      = bindsInOrder k.kernel (arg :: tail)
        ++ (if k.doTime then
              [Op.finish k.queue, Op.run k.queue k.kernel k.groupSize k.workSize k.name,
               Op.finish k.queue, Op.statsAdd micros]
            else [Op.run k.queue k.kernel k.groupSize k.workSize k.name])
    ∧ (bindsInOrder k.kernel (arg :: tail)).length = (arg :: tail).length
    ∧ (k.call arg tail micros).2.countP Op.isSetArg = (arg :: tail).length
    ∧ (k.call arg tail micros).2.countP Op.isRun = 1
    ∧ (k.call arg tail micros).2.countP Op.isFinish = (if k.doTime then 2 else 0)
    ∧ (k.call arg tail micros).2.countP Op.isStats = (if k.doTime then 1 else 0) := by
  obtain ⟨h1, h2, h3, h4⟩ := bindsInOrder_countP k.kernel (arg :: tail)
  refine ⟨call_events k arg tail micros, bindsInOrder_length _ _, ?_, ?_, ?_, ?_⟩
  · rw [call_events, List.countP_append, h1]
    split <;> simp [Op.isSetArg]
  · rw [call_events, List.countP_append, h3]
    split <;> simp [Op.isRun]
  · rw [call_events, List.countP_append, h2]
    split <;> simp [Op.isFinish]
  · rw [call_events, List.countP_append, h4]
    split <;> simp [Op.isStats]

/-! ## Latency statistics -/

/-- C3: an invocation with timing disabled leaves the handle, and so the
invocation count and the accumulated time of its accumulator, unchanged; an
invocation with timing enabled raises the count by exactly 1 and the
accumulated time by exactly the elapsed microseconds the timer measured; in
both cases nothing but the accumulator changes (the members `nCalls` and
`timeSum` of the handle itself are never written). -/
theorem C3_call_updates_statistics {α : Type} (k : Kernel) (arg : α) (tail : List α)
    (micros : Nat) :
    (k.call arg tail micros).1.stats.getStats.count
        = k.stats.getStats.count + (if k.doTime then 1 else 0)
    ∧ (k.call arg tail micros).1.stats.getStats.total
        = k.stats.getStats.total + (if k.doTime then micros else 0)
    ∧ (k.call arg tail micros).1
        = (if k.doTime then { k with stats := k.stats.add micros } else k)
    ∧ (k.call arg tail micros).1.nCalls = k.nCalls
    ∧ (k.call arg tail micros).1.timeSum = k.timeSum
    ∧ SameButStats k (k.call arg tail micros).1 := by
  have hs := call_sameButStats k arg tail micros
  refine ⟨?_, ?_, ?_, ?_, ?_, hs⟩
  · unfold Kernel.call
    split <;> simp [Stats.getStats, Stats.add]
  · unfold Kernel.call
    split <;> simp [Stats.getStats, Stats.add]
  · unfold Kernel.call
    split <;> rfl
  · unfold SameButStats at hs
    rw [hs]
  · unfold SameButStats at hs
    rw [hs]

theorem step_doTime {α : Type} (k : Kernel) (a : Action α) : (k.step a).1.doTime = k.doTime := by
  have hs := step_sameButStats k a
  unfold SameButStats at hs
  rw [hs]

/-- The accumulator after a sequence of actions holds the samples of the
timed invocations since the last reset. -/
theorem exec_stats {α : Type} (acts : List (Action α)) (k : Kernel) (acc : List Nat)
    (h : k.stats = Stats.ofSamples (if k.doTime then acc else [])) :
    (k.exec acts).1.stats
      = Stats.ofSamples (if k.doTime then samplesSinceReset acts acc else []) := by
  induction acts generalizing k acc with
  | nil => exact h
  | cons a rest ih =>
    cases a with
    | call arg tail micros =>
      have hd := step_doTime k (Action.call arg tail micros)
      have := ih (k.step (Action.call arg tail micros)).1 (acc ++ [micros]) (by
        rw [hd]
        simp only [Kernel.step, Kernel.call]
        cases hdt : k.doTime
        · simp only [Bool.false_eq_true, if_false]
          rw [h, hdt]
          rfl
        · simp only [if_true]
          rw [h, hdt]
          simp [Stats.ofSamples, Stats.add])
      rw [hd] at this
      exact this
    | resetStats =>
      have hd := step_doTime k (Action.resetStats : Action α)
      have := ih (k.step (Action.resetStats : Action α)).1 [] (by
        rw [hd]
        simp only [Kernel.step, Kernel.resetStats, Stats.reset]
        split <;> rfl)
      rw [hd] at this
      exact this

/-- C4: after any sequence of invocations and resets on a constructed handle,
`resetStats()` returns a snapshot whose count is the number of timed
invocations made since the previous `resetStats()` (or since construction) and
whose total is the sum of their elapsed times, and it leaves the accumulator
at zero count, so that a second `resetStats()` right after it reports
count 0. -/
theorem C4_resetStats_snapshot {α : Type} (rt : Runtime) (program : cl_program) (q : cl_queue)
    (device : cl_device_id) (workSize : Int) (name : String) (doTime : Bool) (k : Kernel)
    (h : Kernel.construct rt program q device workSize name doTime = .ok k)
    (acts : List (Action α)) :
    ((k.exec acts).1.resetStats).1.count = (timedSinceReset doTime acts).length
    ∧ ((k.exec acts).1.resetStats).1.total = (timedSinceReset doTime acts).sum
    ∧ ((k.exec acts).1.resetStats).2.stats.getStats.count = 0
    ∧ (((k.exec acts).1.resetStats).2.resetStats).1.count = 0
    ∧ (((k.exec acts).1.resetStats).2.resetStats).1.total = 0 := by
  obtain ⟨kernel, _, _, _, hkeq⟩ := construct_ok h
  have hdt : k.doTime = doTime := by rw [hkeq]
  have hst : k.stats = Stats.ofSamples (if k.doTime then [] else []) := by
    rw [hkeq]
    simp [Stats.ofSamples, Stats.init]
  have hex := exec_stats acts k [] hst
  rw [hdt] at hex
  refine ⟨?_, ?_, rfl, rfl, rfl⟩
  · simp only [Kernel.resetStats, Stats.getStats, hex, timedSinceReset, Stats.ofSamples]
  · simp only [Kernel.resetStats, Stats.getStats, hex, timedSinceReset, Stats.ofSamples]

theorem C4_resetStats_snapshot_witness :
    Kernel.construct demoRuntime 0 1 0 256 "fft" true = .ok demoKernel
      ∧ ((demoKernel.exec demoCalls).1.resetStats).1.count = 3
      ∧ ((demoKernel.exec demoCalls).1.resetStats).1.total = 21
      ∧ (((demoKernel.exec demoCalls).1.resetStats).2.resetStats).1.count = 0 :=
  ⟨rfl,
    (C4_resetStats_snapshot demoRuntime 0 1 0 256 "fft" true demoKernel rfl demoCalls).1,
    (C4_resetStats_snapshot demoRuntime 0 1 0 256 "fft" true demoKernel rfl demoCalls).2.1,
    (C4_resetStats_snapshot demoRuntime 0 1 0 256 "fft" true demoKernel rfl
      demoCalls).2.2.2.1⟩

/-! ## Name lookup -/

theorem getArgPosFrom_absent (names : List String) (name : String) (m s : Nat)
    (hlen : s + m ≤ names.length)
    (habs : ∀ j, s ≤ j → j < s + m → names[j]? ≠ some name) :
    getArgPosFrom names name (List.range' s m) = some (-1) := by
  induction m generalizing s with
  | zero => rfl
  | succ m ih =>
    rw [List.range'_succ]
    have hs : s < names.length := by omega
    have hget : names.get? s = some names[s] := by
      simp [List.getElem?_eq_getElem hs]
    have hne : names[s] ≠ name := by
      intro heq
      apply habs s (Nat.le_refl s) (by omega)
      rw [List.getElem?_eq_getElem hs, heq]
    simp only [getArgPosFrom, hget, hne, if_false]
    apply ih (s + 1) (by omega)
    intro j hj1 hj2
    exact habs j (by omega) (by omega)

theorem getArgPosFrom_first (names : List String) (name : String) (m s i : Nat)
    (hsi : s ≤ i) (him : i < s + m) (hlen : s + m ≤ names.length)
    (hi : names[i]? = some name)
    (hfirst : ∀ j, s ≤ j → j < i → names[j]? ≠ some name) :
    getArgPosFrom names name (List.range' s m) = some (i : Int) := by
  induction m generalizing s with
  | zero => omega
  | succ m ih =>
    rw [List.range'_succ]
    have hs : s < names.length := by omega
    have hget : names.get? s = some names[s] := by
      simp [List.getElem?_eq_getElem hs]
    by_cases hsi2 : s = i
    · subst hsi2
      have heq : names[s] = name := by
        rw [List.getElem?_eq_getElem hs] at hi
        exact Option.some.inj hi
      simp only [getArgPosFrom, hget, heq, if_true]
    · have hne : names[s] ≠ name := by
        intro heq
        apply hfirst s (Nat.le_refl s) (by omega)
        rw [List.getElem?_eq_getElem hs, heq]
      simp only [getArgPosFrom, hget, hne, if_false]
      apply ih (s + 1) (by omega) (by omega) (by omega)
      intro j hj1 hj2
      exact hfirst j (by omega) hj2

/-- C5, the claim as stated fails: the handle constructed on a runtime that
declares the name `x` for both arguments holds `x` at index 1, yet
`getArgPos` returns 0 for it, not 1. -/
theorem C5_getArgPos_counterexample :
    ∃ k, Kernel.construct dupRuntime 0 1 0 256 "fft" false = .ok k
      ∧ k.nArgs = 2
      ∧ k.argNames.get? 1 = some "x"
      ∧ k.getArgPos "x" = some 0
      ∧ k.getArgPos "x" ≠ some 1 :=
  ⟨_, rfl, rfl, rfl, by decide, by decide⟩

/-- C5, amended: on a constructed handle `getArgPos` returns the 0-based index
`i` for each declared name `n_i` that does not occur at an earlier index, that
is the first index at which the name is declared, hence `getArgPos(n_i) = i`
for every `i` when the declared names are pairwise distinct; and it returns
the sentinel `-1` for every name absent from the list. -/
theorem C5_getArgPos_first_index (rt : Runtime) (program : cl_program) (q : cl_queue)
    (device : cl_device_id) (workSize : Int) (kname : String) (doTime : Bool) (k : Kernel)
    (h : Kernel.construct rt program q device workSize kname doTime = .ok k) :
    (∀ (i : Nat) (name : String), k.argNames[i]? = some name →
        (∀ j, j < i → k.argNames[j]? ≠ some name) → k.getArgPos name = some (i : Int))
    ∧ (k.argNames.Nodup → ∀ (i : Nat) (name : String), k.argNames[i]? = some name →
        k.getArgPos name = some (i : Int))
    ∧ (∀ name : String, name ∉ k.argNames → k.getArgPos name = some (-1)) := by
  obtain ⟨kernel, _, _, hn, hkeq⟩ := construct_ok h
  have hnargs : k.nArgs = rt.getKernelNumArgs kernel := by rw [hkeq]
  have hlen : k.argNames.length = k.nArgs.toNat := by
    rw [hkeq]
    simp [pushArgNames_eq_map]
  have hfirst : ∀ (i : Nat) (name : String), k.argNames[i]? = some name →
      (∀ j, j < i → k.argNames[j]? ≠ some name) → k.getArgPos name = some (i : Int) := by
    intro i name hi hf
    unfold Kernel.getArgPos
    rw [List.range_eq_range']
    have hil : i < k.argNames.length := (List.getElem?_eq_some.1 hi).1
    apply getArgPosFrom_first k.argNames name k.nArgs.toNat 0 i (Nat.zero_le i) (by omega)
      (by omega) hi
    intro j _ hj
    exact hf j hj
  refine ⟨hfirst, ?_, ?_⟩
  · intro hnd i name hi
    apply hfirst i name hi
    intro j hj hjn
    obtain ⟨hil, hie⟩ := List.getElem?_eq_some.1 hi
    obtain ⟨hjl, hje⟩ := List.getElem?_eq_some.1 hjn
    have := (List.Nodup.getElem_inj_iff hnd).1 (hje.trans hie.symm)
    omega
  · intro name habs
    unfold Kernel.getArgPos
    rw [List.range_eq_range']
    apply getArgPosFrom_absent k.argNames name k.nArgs.toNat 0 (by omega)
    intro j _ _ hj
    exact habs (List.getElem?_mem hj)

theorem C5_getArgPos_first_index_witness :
    Kernel.construct demoRuntime 0 1 0 256 "fft" true = .ok demoKernel
      ∧ demoKernel.argNames[1]? = some "out"
      ∧ demoKernel.getArgPos "out" = some 1
      ∧ demoKernel.getArgPos "tmp" = some (-1) :=
  ⟨rfl, rfl,
    (C5_getArgPos_first_index demoRuntime 0 1 0 256 "fft" true demoKernel rfl).2.1
      (by decide) 1 "out" rfl,
    (C5_getArgPos_first_index demoRuntime 0 1 0 256 "fft" true demoKernel rfl).2.2
      "tmp" (by decide)⟩

end GpuOwl
